import Mathlib

/-!
Verification of the planning-poker session core.

The document store is modelled as four association lists (rooms, participants,
rounds, votes) keyed by the hierarchical paths used in the source
(`rooms/{code}`, `rooms/{code}/participants/{uid}`, `rooms/{code}/rounds/{rid}`,
`rooms/{code}/rounds/{rid}/votes/{uid}`).  `setDoc` is modelled as `setKey`
(insert-or-replace), `updateDoc` fails when the target document is absent,
`deleteDoc` is `delKey`, and `addDoc` takes the store-assigned fresh id as an
explicit parameter.  Server timestamps are abstracted as natural numbers passed
in by the caller.
-/

namespace PlanningPoker

/-- Association-list lookup by key, using decidable equality. -/
def getKey {α β : Type} [DecidableEq α] (k : α) : List (α × β) → Option β
  | [] => none
  | (k', v') :: rest => if k' = k then some v' else getKey k rest

/-- Insert-or-replace semantics of a keyed document write (`setDoc`). -/
def setKey {α β : Type} [DecidableEq α] (k : α) (v : β) : List (α × β) → List (α × β)
  | [] => [(k, v)]
  | (k', v') :: rest => if k' = k then (k, v) :: rest else (k', v') :: setKey k v rest

/-- Document deletion (`deleteDoc`); idempotent. -/
def delKey {α β : Type} [DecidableEq α] (k : α) : List (α × β) → List (α × β)
  | [] => []
  | (k', v') :: rest => if k' = k then delKey k rest else (k', v') :: delKey k rest

/-- `RoomDoc` from src/src/firebase.ts. -/
structure RoomDoc where
  code : String
  createdAt : Nat
  createdBy : String
  currentRoundId : Option String
  updatedAt : Nat
deriving DecidableEq

/-- `ParticipantDoc` from src/src/firebase.ts. -/
structure ParticipantDoc where
  uid : String
  name : String
  joinedAt : Nat
  lastSeenAt : Nat
deriving DecidableEq

/-- `RoundDoc` from src/src/firebase.ts. -/
structure RoundDoc where
  createdAt : Nat
  createdBy : String
  ticket : String
  revealed : Bool
deriving DecidableEq

/-- `VoteDoc` from src/src/firebase.ts. -/
structure VoteDoc where
  uid : String
  value : Int
  createdAt : Nat
deriving DecidableEq

/-- The document store: the four collections used by the app. -/
structure Store where
  rooms : List (String × RoomDoc)
  participants : List ((String × String) × ParticipantDoc)
  rounds : List ((String × String) × RoundDoc)
  votes : List ((String × String × String) × VoteDoc)
deriving DecidableEq

def emptyStore : Store := ⟨[], [], [], []⟩

/-- The permission-failure message the firestore client reports on a rules
denial; `createRoom` and `joinRoom` inspect error messages for it. -/
def permissionDeniedMsg : String := "Missing or insufficient permissions"

/-- The failure message of `updateDoc` against a missing document. -/
def noDocumentMsg : String := "No document to update"

/-- Error thrown by `joinRoom` for a nonexistent room. -/
def roomNotFoundMsg : String := "Room not found."

/-- Error thrown by `createRoom` after the retry loop (line 140 of firebase.ts). -/
def roomCreationExhaustedMsg : String := "Failed to create a unique room code. Please try again."

/-- Boolean list-prefix test. -/
def isPrefixL {α : Type} [DecidableEq α] : List α → List α → Bool
  | [], _ => true
  | _ :: _, [] => false
  | a :: as, b :: bs => a = b && isPrefixL as bs

/-- Boolean list-infix test. -/
def isInfixL {α : Type} [DecidableEq α] (pat : List α) : List α → Bool
  | [] => isPrefixL pat []
  | b :: bs => isPrefixL pat (b :: bs) || isInfixL pat bs

/-- JavaScript `s.includes(pat)` on strings. -/
def strIncludes (s pat : String) : Bool := isInfixL pat.data s.data

/-- JavaScript `s.trim()`: drop leading and trailing whitespace characters.
(Defined on the character list so that it evaluates inside the kernel.) -/
def strTrim (s : String) : String :=
  String.mk (((s.data.dropWhile Char.isWhitespace).reverse.dropWhile Char.isWhitespace).reverse)

/-- JavaScript `s.toUpperCase()` on the character list. -/
def strToUpper (s : String) : String := String.mk (s.data.map Char.toUpper)

/-- `normalizeRoomCode` from firebase.ts: `code.trim().toUpperCase()`. -/
def normalizeRoomCode (code : String) : String := strToUpper (strTrim code)

/-- The room-code alphabet (`chars` in `generateRoomCode`): 32 symbols,
avoiding the ambiguous glyphs 0/O and 1/I. -/
def roomCodeAlphabet : String := "ABCDEFGHJKLMNPQRSTUVWXYZ23456789"

theorem roomCodeAlphabet_data_length : roomCodeAlphabet.data.length = 32 := rfl

/-- `generateRoomCode` from firebase.ts.  Each loop iteration appends
`chars[Math.floor(Math.random() * chars.length)]`; the four random draws are
abstracted as a function `r : Fin 4 → Fin 32`. -/
def generateRoomCode (r : Fin 4 → Fin 32) : String :=
  String.mk ((List.finRange 4).map fun i =>
    roomCodeAlphabet.data.get (Fin.cast roomCodeAlphabet_data_length.symm (r i)))

/-- `joinRoom` from firebase.ts.  Normalizes the code, builds the participant
document (`name.trim() || "Guest"`), and upserts it with merge semantics.
Modelled from the spec: the security rules (not under src/) reject a
participant write under a nonexistent room as a permission failure; the
source's catch maps a message containing `permissionDeniedMsg` to the
"Room not found." error and rethrows anything else. -/
def joinRoom (uid rawCode name : String) (now : Nat) (s : Store) :
    Store × Except String Unit :=
  let code := normalizeRoomCode rawCode
  let participant : ParticipantDoc :=
    { uid := uid
      name := if strTrim name = "" then "Guest" else strTrim name
      joinedAt := now
      lastSeenAt := now }
  match getKey code s.rooms with
  | none =>
      let msg := permissionDeniedMsg
      if strIncludes msg permissionDeniedMsg then (s, .error roomNotFoundMsg)
      else (s, .error msg)
  | some _ =>
      ({ s with participants := setKey (code, uid) participant s.participants }, .ok ())

/-- `touchPresence` from firebase.ts: `setDoc(participantRef, { lastSeenAt }, { merge: true })`.
A merge over an existing participant updates only `lastSeenAt`; a merge-create
under a missing key writes a document holding only `lastSeenAt` (the absent
fields are represented by defaults). -/
def touchPresence (uid rawCode : String) (now : Nat) (s : Store) :
    Store × Except String Unit :=
  let code := normalizeRoomCode rawCode
  match getKey (code, uid) s.participants with
  | some p =>
      ({ s with participants := setKey (code, uid) { p with lastSeenAt := now } s.participants }, .ok ())
  | none =>
      ({ s with participants := setKey (code, uid) { uid := "", name := "", joinedAt := 0, lastSeenAt := now } s.participants },
       .ok ())

/-- `leaveRoom` from firebase.ts: `deleteDoc(participantRef)`. -/
def leaveRoom (uid rawCode : String) (s : Store) : Store × Except String Unit :=
  let code := normalizeRoomCode rawCode
  ({ s with participants := delKey (code, uid) s.participants }, .ok ())

/-- `startRound` from firebase.ts: first `addDoc` creates the Round document
(`revealed: false`, `ticket: ticket.trim()`) under the fresh store-assigned
id `rid`, then `updateDoc` sets the Room's `currentRoundId` (failing if the
room document is missing, in which case the round write persists). -/
def startRound (uid rawCode ticket rid : String) (now : Nat) (s : Store) :
    Store × Except String String :=
  let code := normalizeRoomCode rawCode
  let round : RoundDoc :=
    { createdAt := now, createdBy := uid, ticket := strTrim ticket, revealed := false }
  let s1 : Store := { s with rounds := setKey (code, rid) round s.rounds }
  match getKey code s1.rooms with
  | none => (s1, .error noDocumentMsg)
  | some room =>
      ({ s1 with rooms := setKey code { room with currentRoundId := some rid, updatedAt := now } s1.rooms },
       .ok rid)

/-- `revealRound` from firebase.ts: `updateDoc(roundRef, { revealed: true })`. -/
def revealRound (rawCode roundId : String) (s : Store) : Store × Except String Unit :=
  let code := normalizeRoomCode rawCode
  match getKey (code, roundId) s.rounds with
  | none => (s, .error noDocumentMsg)
  | some r =>
      ({ s with rounds := setKey (code, roundId) { r with revealed := true } s.rounds }, .ok ())

/-- `clearCurrentRound` from firebase.ts:
`updateDoc(roomRef, { currentRoundId: null, updatedAt })`. -/
def clearCurrentRound (rawCode : String) (now : Nat) (s : Store) :
    Store × Except String Unit :=
  let code := normalizeRoomCode rawCode
  match getKey code s.rooms with
  | none => (s, .error noDocumentMsg)
  | some room =>
      ({ s with rooms := setKey code { room with currentRoundId := none, updatedAt := now } s.rooms },
       .ok ())

/-- `castVote` from firebase.ts: `setDoc` of the full vote document keyed by
the caller's uid under the given round. -/
def castVote (uid rawCode roundId : String) (value : Int) (now : Nat) (s : Store) :
    Store × Except String Unit :=
  let code := normalizeRoomCode rawCode
  ({ s with votes := setKey (code, roundId, uid) { uid := uid, value := value, createdAt := now } s.votes },
   .ok ())

/-- The body of `createRoom`'s retry loop (firebase.ts lines 100-138).  `fuel`
counts the remaining iterations of `for (attempt = 0; attempt < 10; attempt++)`
(so `fuel = 10 - attempt`); when it reaches 0 the loop exits to the line-140
throw.  Each attempt generates a code from the draws `rs attempt`, then tries
`setDoc(roomRef, room)` followed by `setDoc(participantRef, participant, merge)`.
Modelled from the spec: the security rules (not under src/) forbid overwriting
an existing room document, so a colliding `setDoc` fails with the permission
message; `fault attempt` injects any other store/network rejection of the
attempt.  The catch retries exactly when the message contains
`permissionDeniedMsg` and `attempt < 9`, and otherwise rethrows. -/
def createRoomGo (uid name : String) (now : Nat) (rs : Nat → Fin 4 → Fin 32)
    (fault : Nat → Option String) : Nat → Nat → Store → Store × Except String String
  | 0, _, s => (s, .error roomCreationExhaustedMsg)
  | fuel + 1, attempt, s =>
      let code := generateRoomCode (rs attempt)
      let room : RoomDoc :=
        { code := code, createdAt := now, createdBy := uid, currentRoundId := none, updatedAt := now }
      let participant : ParticipantDoc :=
        { uid := uid
          name := if strTrim name = "" then "Guest" else strTrim name
          joinedAt := now
          lastSeenAt := now }
      let written : Except String Unit :=
        match fault attempt with
        | some m => .error m
        | none =>
            match getKey code s.rooms with
            | some _ => .error permissionDeniedMsg
            | none => .ok ()
      match written with
      | .ok () =>
          let s1 : Store := { s with rooms := setKey code room s.rooms }
          let s2 : Store := { s1 with participants := setKey (code, uid) participant s1.participants }
          (s2, .ok code)
      | .error msg =>
          if strIncludes msg permissionDeniedMsg ∧ attempt < 9 then
            createRoomGo uid name now rs fault fuel (attempt + 1) s
          else (s, .error msg)

/-- `createRoom` from firebase.ts: the retry loop entered at attempt 0. -/
def createRoom (uid name : String) (now : Nat) (rs : Nat → Fin 4 → Fin 32)
    (fault : Nat → Option String) (s : Store) : Store × Except String String :=
  createRoomGo uid name now rs fault 10 0 s

/-- The vote documents of one round, keyed by voter uid, as delivered by the
votes snapshot listener (the `votes` map of the Room component). -/
def roundVotesL (code roundId : String)
    (l : List ((String × String × String) × VoteDoc)) : List (String × VoteDoc) :=
  l.filterMap fun p =>
    if p.1.1 = code ∧ p.1.2.1 = roundId then some (p.1.2.2, p.2) else none

/-- The votes map the component holds for a given round of a given room. -/
def roundVotes (code roundId : String) (s : Store) : List (String × VoteDoc) :=
  roundVotesL code roundId s.votes

/-- The `summary` projection of the Room component (src/unnamed/part_000 lines
68-76), with the exact rational average in place of the float division. -/
structure VoteSummary where
  avg : Option ℚ
  count : Nat
deriving DecidableEq

/-- `summary` from the Room component: `null` while unrevealed; otherwise maps
the votes map to its values, reports `{ avg: null, count: 0 }` when empty and
`{ avg: sum / length, count: length }` otherwise. -/
def summary (revealed : Bool) (votes : List (String × VoteDoc)) : Option VoteSummary :=
  if !revealed then none
  else
    let vals := votes.map fun p => p.2.value
    if vals.length = 0 then some { avg := none, count := 0 }
    else
      let sum : Int := vals.foldl (· + ·) 0
      some { avg := some ((sum : ℚ) / (vals.length : ℚ)), count := vals.length }

/-- The round the Room component displays: the round+votes listener effect
(part_000 lines 138-178) subscribes to `rooms/{code}/rounds/{currentRoundId}`
when `currentRoundId` is set and resets the round to `null` otherwise. -/
def projectedRound (code : String) (s : Store) : Option (String × RoundDoc) :=
  match getKey code s.rooms with
  | none => none
  | some room =>
      match room.currentRoundId with
      | none => none
      | some rid => (getKey (code, rid) s.rounds).map fun r => (rid, r)

/-- The votes map the Room component displays: empty whenever there is no
current round (part_000 lines 138-143), the current round's votes otherwise. -/
def projectedVotes (code : String) (s : Store) : List (String × VoteDoc) :=
  match getKey code s.rooms with
  | none => []
  | some room =>
      match room.currentRoundId with
      | none => []
      | some rid => roundVotes code rid s

/-- The write operations of the system named by the reveal-monotonicity
invariant (joinRoom, leaveRoom, touchPresence, startRound, revealRound,
clearCurrentRound, castVote). -/
inductive Op
  | join (uid code name : String) (now : Nat)
  | leave (uid code : String)
  | touch (uid code : String) (now : Nat)
  | start (uid code ticket rid : String) (now : Nat)
  | reveal (code roundId : String)
  | clear (code : String) (now : Nat)
  | vote (uid code roundId : String) (value : Int) (now : Nat)

/-- The store state after an operation, whether or not the call succeeded. -/
def applyOp : Op → Store → Store
  | .join uid code name now, s => (joinRoom uid code name now s).1
  | .leave uid code, s => (leaveRoom uid code s).1
  | .touch uid code now, s => (touchPresence uid code now s).1
  | .start uid code ticket rid now, s => (startRound uid code ticket rid now s).1
  | .reveal code roundId, s => (revealRound code roundId s).1
  | .clear code now, s => (clearCurrentRound code now s).1
  | .vote uid code roundId v now, s => (castVote uid code roundId v now s).1

/-- Freshness of a store-assigned round id: `addDoc` never reuses the id of an
existing document, so `startRound`'s new id is absent from the store.  All
other operations carry no store-assigned id. -/
def opFresh : Op → Store → Prop
  | .start _ code _ rid _, s => getKey (normalizeRoomCode code, rid) s.rounds = none
  | _, _ => True

section AssocLemmas

variable {α β : Type} [DecidableEq α]

theorem getKey_setKey_self (k : α) (v : β) (l : List (α × β)) :
    getKey k (setKey k v l) = some v := by
  induction l with
  | nil => simp [setKey, getKey]
  | cons p rest ih =>
      obtain ⟨k', v'⟩ := p
      by_cases h : k' = k
      · simp [setKey, getKey, h]
      · simp [setKey, getKey, h, ih]

theorem getKey_setKey_ne {k k' : α} (h : k' ≠ k) (v : β) (l : List (α × β)) :
    getKey k' (setKey k v l) = getKey k' l := by
  induction l with
  | nil => simp [setKey, getKey, Ne.symm h]
  | cons p rest ih =>
      obtain ⟨k₀, v₀⟩ := p
      by_cases hk : k₀ = k
      · subst hk
        simp [setKey, getKey, Ne.symm h]
      · simp [setKey, getKey, hk, ih]

theorem setKey_cons_self (k : α) (v v' : β) (l : List (α × β)) :
    setKey k v ((k, v') :: l) = (k, v) :: l := by
  simp [setKey]

theorem setKey_cons_ne {k k' : α} (h : k' ≠ k) (v v' : β) (l : List (α × β)) :
    setKey k v ((k', v') :: l) = (k', v') :: setKey k v l := by
  simp [setKey, h]

theorem mem_keys_setKey (x k : α) (v : β) (l : List (α × β)) :
    x ∈ (setKey k v l).map Prod.fst ↔ x = k ∨ x ∈ l.map Prod.fst := by
  induction l with
  | nil => simp [setKey, eq_comm]
  | cons p rest ih =>
      obtain ⟨k', v'⟩ := p
      by_cases h : k' = k
      · subst h
        simp [setKey, eq_comm]
      · simp only [setKey, if_neg h, List.map_cons, List.mem_cons, ih]
        tauto

theorem keys_setKey_nodup (k : α) (v : β) (l : List (α × β))
    (h : (l.map Prod.fst).Nodup) : ((setKey k v l).map Prod.fst).Nodup := by
  induction l with
  | nil => simp [setKey]
  | cons p rest ih =>
      obtain ⟨k', v'⟩ := p
      simp only [List.map_cons, List.nodup_cons] at h
      obtain ⟨hnot, hrest⟩ := h
      by_cases hk : k' = k
      · subst hk
        rw [setKey_cons_self]
        simp only [List.map_cons, List.nodup_cons]
        exact ⟨hnot, hrest⟩
      · simp only [setKey, if_neg hk, List.map_cons, List.nodup_cons]
        refine ⟨?_, ih hrest⟩
        rw [mem_keys_setKey]
        rintro (hx | hx)
        · exact hk hx
        · exact hnot hx

theorem mem_setKey_self (k : α) (v : β) (l : List (α × β)) :
    (k, v) ∈ setKey k v l := by
  induction l with
  | nil => simp [setKey]
  | cons p rest ih =>
      obtain ⟨k', v'⟩ := p
      by_cases h : k' = k
      · simp [setKey, h]
      · simp only [setKey, if_neg h, List.mem_cons]
        exact Or.inr ih

end AssocLemmas

theorem roundVotesL_cons_of_match {code rid c r u : String} {w : VoteDoc}
    (h : c = code ∧ r = rid) (l : List ((String × String × String) × VoteDoc)) :
    roundVotesL code rid (((c, r, u), w) :: l) = (u, w) :: roundVotesL code rid l := by
  obtain ⟨h1, h2⟩ := h
  subst h1; subst h2
  simp [roundVotesL, List.filterMap_cons]

theorem roundVotesL_cons_of_nomatch {code rid c r u : String} {w : VoteDoc}
    (h : ¬(c = code ∧ r = rid)) (l : List ((String × String × String) × VoteDoc)) :
    roundVotesL code rid (((c, r, u), w) :: l) = roundVotesL code rid l := by
  simp [roundVotesL, List.filterMap_cons, h]

theorem mem_roundVotesL_keys (code rid u : String)
    (l : List ((String × String × String) × VoteDoc)) :
    u ∈ (roundVotesL code rid l).map Prod.fst ↔ ∃ w, ((code, rid, u), w) ∈ l := by
  induction l with
  | nil => simp [roundVotesL]
  | cons p rest ih =>
      obtain ⟨⟨c, r, u'⟩, w⟩ := p
      by_cases h : c = code ∧ r = rid
      · rw [roundVotesL_cons_of_match h]
        simp only [List.map_cons, List.mem_cons]
        rw [ih]
        constructor
        · rintro (hx | ⟨w', hw'⟩)
          · refine ⟨w, Or.inl ?_⟩
            rw [h.1, h.2, hx]
          · exact ⟨w', Or.inr hw'⟩
        · rintro ⟨w', hw' | hw'⟩
          · injection hw' with hk hv
            injection hk with hk1 hk2
            injection hk2 with hk2 hk3
            exact Or.inl hk3
          · exact Or.inr ⟨w', hw'⟩
      · rw [roundVotesL_cons_of_nomatch h, ih]
        constructor
        · rintro ⟨w', hw'⟩
          exact ⟨w', List.mem_cons_of_mem _ hw'⟩
        · rintro ⟨w', hw'⟩
          rcases List.mem_cons.mp hw' with h1 | h1
          · injection h1 with hk hv
            injection hk with hk1 hk2
            injection hk2 with hk2 hk3
            exact absurd ⟨hk1.symm, hk2.symm⟩ h
          · exact ⟨w', h1⟩

theorem roundVotesL_keys_nodup (code rid : String)
    (l : List ((String × String × String) × VoteDoc))
    (h : (l.map Prod.fst).Nodup) :
    ((roundVotesL code rid l).map Prod.fst).Nodup := by
  induction l with
  | nil => simp [roundVotesL]
  | cons p rest ih =>
      obtain ⟨⟨c, r, u⟩, w⟩ := p
      simp only [List.map_cons, List.nodup_cons] at h
      obtain ⟨hnot, hrest⟩ := h
      by_cases hm : c = code ∧ r = rid
      · rw [roundVotesL_cons_of_match hm]
        simp only [List.map_cons, List.nodup_cons]
        refine ⟨?_, ih hrest⟩
        intro hmem
        rw [mem_roundVotesL_keys] at hmem
        obtain ⟨w', hw'⟩ := hmem
        rw [hm.1, hm.2] at hnot
        exact hnot (List.mem_map_of_mem Prod.fst hw')
      · rw [roundVotesL_cons_of_nomatch hm]
        exact ih hrest

theorem joinRoom_rounds (uid rawCode name : String) (now : Nat) (s : Store) :
    (joinRoom uid rawCode name now s).1.rounds = s.rounds := by
  simp only [joinRoom]
  cases getKey (normalizeRoomCode rawCode) s.rooms <;> rfl

theorem leaveRoom_rounds (uid rawCode : String) (s : Store) :
    (leaveRoom uid rawCode s).1.rounds = s.rounds := rfl

theorem touchPresence_rounds (uid rawCode : String) (now : Nat) (s : Store) :
    (touchPresence uid rawCode now s).1.rounds = s.rounds := by
  simp only [touchPresence]
  cases getKey (normalizeRoomCode rawCode, uid) s.participants <;> rfl

theorem clearCurrentRound_rounds (rawCode : String) (now : Nat) (s : Store) :
    (clearCurrentRound rawCode now s).1.rounds = s.rounds := by
  simp only [clearCurrentRound]
  cases getKey (normalizeRoomCode rawCode) s.rooms <;> rfl

theorem castVote_rounds (uid rawCode roundId : String) (value : Int) (now : Nat) (s : Store) :
    (castVote uid rawCode roundId value now s).1.rounds = s.rounds := rfl

theorem startRound_rounds (uid rawCode ticket rid : String) (now : Nat) (s : Store) :
    (startRound uid rawCode ticket rid now s).1.rounds =
      setKey (normalizeRoomCode rawCode, rid)
        { createdAt := now, createdBy := uid, ticket := strTrim ticket, revealed := false }
        s.rounds := by
  simp only [startRound]
  cases getKey (normalizeRoomCode rawCode) s.rooms <;> rfl

theorem revealRound_rounds_of_none (rawCode roundId : String) (s : Store)
    (hg : getKey (normalizeRoomCode rawCode, roundId) s.rounds = none) :
    (revealRound rawCode roundId s).1.rounds = s.rounds := by
  simp only [revealRound]
  rw [hg]

theorem revealRound_rounds_of_some (rawCode roundId : String) (s : Store) (r0 : RoundDoc)
    (hg : getKey (normalizeRoomCode rawCode, roundId) s.rounds = some r0) :
    (revealRound rawCode roundId s).1.rounds
      = setKey (normalizeRoomCode rawCode, roundId) { r0 with revealed := true } s.rounds := by
  simp only [revealRound]
  rw [hg]

/-- C1: once a round's revealed flag is true, no operation of the system
(revealRound, castVote, startRound, clearCurrentRound, joinRoom, leaveRoom,
touchPresence) ever sets it back to false — revealRound only writes
revealed=true, and no other operation writes the revealed field of an
existing round (startRound's id is store-assigned and fresh). -/
theorem revealed_monotonic (op : Op) (s : Store) (code rid : String) (r : RoundDoc)
    (hfresh : opFresh op s) (h : getKey (code, rid) s.rounds = some r)
    (hrev : r.revealed = true) :
    ∃ r', getKey (code, rid) (applyOp op s).rounds = some r' ∧ r'.revealed = true := by
  cases op with
  | join uid c n t =>
      refine ⟨r, ?_, hrev⟩
      rw [show applyOp (.join uid c n t) s = (joinRoom uid c n t s).1 from rfl,
        joinRoom_rounds]
      exact h
  | leave uid c =>
      refine ⟨r, ?_, hrev⟩
      rw [show applyOp (.leave uid c) s = (leaveRoom uid c s).1 from rfl,
        leaveRoom_rounds]
      exact h
  | touch uid c t =>
      refine ⟨r, ?_, hrev⟩
      rw [show applyOp (.touch uid c t) s = (touchPresence uid c t s).1 from rfl,
        touchPresence_rounds]
      exact h
  | clear c t =>
      refine ⟨r, ?_, hrev⟩
      rw [show applyOp (.clear c t) s = (clearCurrentRound c t s).1 from rfl,
        clearCurrentRound_rounds]
      exact h
  | vote uid c rid' v t =>
      refine ⟨r, ?_, hrev⟩
      rw [show applyOp (.vote uid c rid' v t) s = (castVote uid c rid' v t s).1 from rfl,
        castVote_rounds]
      exact h
  | start uid c ticket rid' t =>
      refine ⟨r, ?_, hrev⟩
      rw [show applyOp (.start uid c ticket rid' t) s = (startRound uid c ticket rid' t s).1
        from rfl, startRound_rounds]
      have hf : getKey (normalizeRoomCode c, rid') s.rounds = none := hfresh
      have hne : (code, rid) ≠ (normalizeRoomCode c, rid') := by
        intro he
        rw [← he] at hf
        rw [h] at hf
        exact Option.noConfusion hf
      rw [getKey_setKey_ne hne]
      exact h
  | reveal c rid' =>
      rw [show applyOp (.reveal c rid') s = (revealRound c rid' s).1 from rfl]
      cases hg : getKey (normalizeRoomCode c, rid') s.rounds with
      | none =>
          rw [revealRound_rounds_of_none c rid' s hg]
          exact ⟨r, h, hrev⟩
      | some r0 =>
          rw [revealRound_rounds_of_some c rid' s r0 hg]
          by_cases he : (code, rid) = (normalizeRoomCode c, rid')
          · refine ⟨{ r0 with revealed := true }, ?_, rfl⟩
            rw [he]
            exact getKey_setKey_self _ _ _
          · refine ⟨r, ?_, hrev⟩
            rw [getKey_setKey_ne he]
            exact h

/-- C8: every generated room code has length exactly 4, the alphabet has
exactly 32 symbols, and every character of a generated code is a member of
the alphabet. -/
theorem generateRoomCode_spec (r : Fin 4 → Fin 32) :
    (generateRoomCode r).length = 4 ∧
    roomCodeAlphabet.data.length = 32 ∧
    ∀ c, c ∈ (generateRoomCode r).data → c ∈ roomCodeAlphabet.data := by
  refine ⟨?_, rfl, ?_⟩
  · rw [show (generateRoomCode r).length
        = ((List.finRange 4).map fun i =>
            roomCodeAlphabet.data.get (Fin.cast roomCodeAlphabet_data_length.symm (r i))).length
      from rfl]
    rw [List.length_map, List.length_finRange]
  · intro c hc
    have hc' : c ∈ (List.finRange 4).map fun i =>
        roomCodeAlphabet.data.get (Fin.cast roomCodeAlphabet_data_length.symm (r i)) := hc
    rw [List.mem_map] at hc'
    obtain ⟨i, _, hci⟩ := hc'
    rw [← hci]
    exact List.get_mem _ _ _

/-- Closed witness for C8 at the all-zero draw (code "AAAA"). -/
theorem generateRoomCode_spec_witness :
    (generateRoomCode fun _ => 0).length = 4 ∧ 'A' ∈ roomCodeAlphabet.data :=
  ⟨(generateRoomCode_spec fun _ => 0).1,
   (generateRoomCode_spec fun _ => 0).2.2 'A' (by decide)⟩

theorem foldl_add_int (l : List Int) (i : Int) : l.foldl (· + ·) i = i + l.sum := by
  induction l generalizing i with
  | nil => simp
  | cons a t ih =>
      rw [List.foldl_cons, ih, List.sum_cons]
      ring

theorem summary_eval (votes : List (String × VoteDoc)) (h0 : votes.length ≠ 0) :
    summary true votes
      = some ⟨some ((((votes.map fun p => p.2.value).sum : ℤ) : ℚ) / (votes.length : ℚ)),
          votes.length⟩ := by
  have hv : (votes.map fun p => p.2.value).length = votes.length := List.length_map _ _
  simp only [summary, Bool.not_true, Bool.false_eq_true, if_false, hv, if_neg h0]
  rw [foldl_add_int, zero_add]

/-- C2: the revealed summary counts every stored vote (including value 0),
its average is the exact rational sum/count, an empty votes map yields an
absent average with count 0, and the concrete examples of the spec hold:
votes {1,2,3} average 2; votes {3,5} count 2 average 4; a 0 vote is counted
({0,4} averages 2, not 4). -/
theorem summary_policy :
    (∀ votes : List (String × VoteDoc),
      ∃ out, summary true votes = some out
        ∧ out.count = votes.length
        ∧ (votes.length = 0 → out.avg = none)
        ∧ (votes.length ≠ 0 →
            out.avg = some ((((votes.map fun p => p.2.value).sum : ℤ) : ℚ) / (votes.length : ℚ))))
    ∧ summary true [("a", ⟨"a", 1, 0⟩), ("b", ⟨"b", 2, 0⟩), ("c", ⟨"c", 3, 0⟩)]
        = some ⟨some 2, 3⟩
    ∧ summary true [("a", ⟨"a", 3, 0⟩), ("b", ⟨"b", 5, 0⟩)] = some ⟨some 4, 2⟩
    ∧ summary true [("a", ⟨"a", 0, 0⟩), ("b", ⟨"b", 4, 0⟩)] = some ⟨some 2, 2⟩
    ∧ summary true [] = some ⟨none, 0⟩ := by
  refine ⟨?_, ?_, ?_, ?_, rfl⟩
  · intro votes
    by_cases h0 : votes.length = 0
    · have hnil : votes = [] := List.length_eq_zero.mp h0
      subst hnil
      exact ⟨⟨none, 0⟩, rfl, rfl, fun _ => rfl, fun hh => absurd rfl hh⟩
    · exact ⟨_, summary_eval votes h0, rfl, fun hh => absurd hh h0, fun _ => rfl⟩
  · rw [summary_eval _ (by decide)]
    norm_num
  · rw [summary_eval _ (by decide)]
    norm_num
  · rw [summary_eval _ (by decide)]
    norm_num

/-- Closed witness for C2: the general clause applied to the two-vote map
{3, 5} discharges both hypotheses. -/
theorem summary_policy_witness :
    ∃ out, summary true [("a", ⟨"a", 3, 0⟩), ("b", ⟨"b", 5, 0⟩)] = some out
      ∧ out.count = 2 ∧ out.avg = some 4 := by
  obtain ⟨out, h1, h2, -, h4⟩ := summary_policy.1 [("a", ⟨"a", 3, 0⟩), ("b", ⟨"b", 5, 0⟩)]
  refine ⟨out, h1, h2, ?_⟩
  rw [h4 (by decide)]
  norm_num

/-- Closed witness for C1: castVote against a store holding a revealed round
leaves that round revealed. -/
theorem revealed_monotonic_witness :
    ∃ r', getKey ("AB", "r1")
        (applyOp (.vote "u" "AB" "r1" 5 3)
          ⟨[], [], [(("AB", "r1"), ⟨0, "h", "T", true⟩)], []⟩).rounds
      = some r' ∧ r'.revealed = true :=
  revealed_monotonic (.vote "u" "AB" "r1" 5 3)
    ⟨[], [], [(("AB", "r1"), ⟨0, "h", "T", true⟩)], []⟩
    "AB" "r1" ⟨0, "h", "T", true⟩ trivial (by decide) rfl

theorem castVote_votes (uid rawCode roundId : String) (v : Int) (now : Nat) (s : Store) :
    (castVote uid rawCode roundId v now s).1.votes
      = setKey (normalizeRoomCode rawCode, roundId, uid) ⟨uid, v, now⟩ s.votes := rfl

/-- C3: re-voting overwrites — after two castVote calls by the same uid in
the same round the stored vote carries the last value, the vote keys remain
duplicate-free (at most one Vote per (round, uid)), the uid has a vote in
the round's votes map, and the round's tally equals the number of distinct
voter uids. -/
theorem castVote_overwrites (s : Store) (hnd : (s.votes.map Prod.fst).Nodup)
    (uid rawCode roundId : String) (v1 v2 : Int) (t1 t2 : Nat) :
    let code := normalizeRoomCode rawCode
    let s2 := (castVote uid rawCode roundId v2 t2 (castVote uid rawCode roundId v1 t1 s).1).1
    getKey (code, roundId, uid) s2.votes = some ⟨uid, v2, t2⟩
    ∧ (s2.votes.map Prod.fst).Nodup
    ∧ uid ∈ (roundVotes code roundId s2).map Prod.fst
    ∧ (roundVotes code roundId s2).length
        = ((roundVotes code roundId s2).map Prod.fst).dedup.length := by
  intro code s2
  have hv : s2.votes = setKey (code, roundId, uid) ⟨uid, v2, t2⟩
      (setKey (code, roundId, uid) ⟨uid, v1, t1⟩ s.votes) := rfl
  have hnd2 : (s2.votes.map Prod.fst).Nodup := by
    rw [hv]
    exact keys_setKey_nodup _ _ _ (keys_setKey_nodup _ _ _ hnd)
  refine ⟨?_, hnd2, ?_, ?_⟩
  · rw [hv]
    exact getKey_setKey_self _ _ _
  · rw [show roundVotes code roundId s2 = roundVotesL code roundId s2.votes from rfl,
      mem_roundVotesL_keys]
    exact ⟨⟨uid, v2, t2⟩, by rw [hv]; exact mem_setKey_self _ _ _⟩
  · have hkeys : ((roundVotes code roundId s2).map Prod.fst).Nodup :=
      roundVotesL_keys_nodup _ _ _ hnd2
    rw [List.Nodup.dedup hkeys, List.length_map]

/-- Closed witness for C3: two votes by uid "u" in round "r1" leave the value
of the second. -/
theorem castVote_overwrites_witness :
    getKey (normalizeRoomCode "AB", "r1", "u")
      ((castVote "u" "AB" "r1" 5 1 (castVote "u" "AB" "r1" 3 0 emptyStore).1).1).votes
      = some ⟨"u", 5, 1⟩ :=
  (castVote_overwrites emptyStore (by decide) "u" "AB" "r1" 3 5 0 1).1

/-- C5 counterexample: a startRound whose room update fails (the room is
missing) still leaves the newly created Round document in the store — the
state after the failed call differs from the state before it. -/
theorem startRound_failure_changes_state :
    (startRound "u" "AAAA" "T" "r1" 0 emptyStore).2 = .error noDocumentMsg
    ∧ (startRound "u" "AAAA" "T" "r1" 0 emptyStore).1 ≠ emptyStore := by
  exact ⟨rfl, by decide⟩

/-- C5 (amended): a failing revealRound or clearCurrentRound leaves the store
unchanged, castVote never fails, and a failing startRound leaves the rooms,
participants and votes collections unchanged while the newly created
(orphaned) Round document persists in the rounds collection. -/
theorem action_failure_frame :
    (∀ s : Store, ∀ rawCode roundId m, (revealRound rawCode roundId s).2 = .error m
        → (revealRound rawCode roundId s).1 = s)
    ∧ (∀ s : Store, ∀ rawCode, ∀ now : Nat, ∀ m, (clearCurrentRound rawCode now s).2 = .error m
        → (clearCurrentRound rawCode now s).1 = s)
    ∧ (∀ s : Store, ∀ uid rawCode roundId, ∀ v : Int, ∀ now : Nat,
        (castVote uid rawCode roundId v now s).2 = .ok ())
    ∧ (∀ s : Store, ∀ uid rawCode ticket rid, ∀ now : Nat, ∀ m,
        (startRound uid rawCode ticket rid now s).2 = .error m →
          (startRound uid rawCode ticket rid now s).1
            = { s with rounds := setKey (normalizeRoomCode rawCode, rid) ⟨now, uid, strTrim ticket, false⟩ s.rounds }) := by
  refine ⟨?_, ?_, ?_, ?_⟩
  · intro s rawCode roundId m
    simp only [revealRound]
    cases hg : getKey (normalizeRoomCode rawCode, roundId) s.rounds with
    | none => intro _; rfl
    | some r0 => intro hm; exact absurd hm (by simp)
  · intro s rawCode now m
    simp only [clearCurrentRound]
    cases hg : getKey (normalizeRoomCode rawCode) s.rooms with
    | none => intro _; rfl
    | some room => intro hm; exact absurd hm (by simp)
  · intro s uid rawCode roundId v now
    rfl
  · intro s uid rawCode ticket rid now m
    simp only [startRound]
    cases hg : getKey (normalizeRoomCode rawCode) s.rooms with
    | none => intro _; rfl
    | some room => intro hm; exact absurd hm (by simp)

/-- Closed witness for C5's amended theorem: a revealRound against a missing
round fails and leaves the empty store unchanged. -/
theorem action_failure_frame_witness :
    (revealRound "ZZ" "nope" emptyStore).1 = emptyStore :=
  action_failure_frame.1 emptyStore "ZZ" "nope" noDocumentMsg rfl

/-- C6: joinRoom normalizes the given code by trimming and uppercasing, fails
with the RoomNotFound error exactly when the room is absent (leaving the
store unchanged, via inspection of the permission-failure message), and for
an existing room upserts the Participant document keyed by the caller's uid
while leaving the rooms collection unchanged. -/
theorem joinRoom_spec (s : Store) (uid rawCode name : String) (now : Nat) :
    normalizeRoomCode rawCode = strToUpper (strTrim rawCode)
    ∧ (getKey (normalizeRoomCode rawCode) s.rooms = none →
        joinRoom uid rawCode name now s = (s, .error roomNotFoundMsg))
    ∧ (∀ room, getKey (normalizeRoomCode rawCode) s.rooms = some room →
        joinRoom uid rawCode name now s
          = ({ s with participants := setKey (normalizeRoomCode rawCode, uid) ⟨uid, if strTrim name = "" then "Guest" else strTrim name, now, now⟩ s.participants },
             .ok ())
        ∧ (joinRoom uid rawCode name now s).1.rooms = s.rooms) := by
  refine ⟨rfl, ?_, ?_⟩
  · intro hn
    simp only [joinRoom]
    rw [hn]
    rfl
  · intro room hr
    have hout : joinRoom uid rawCode name now s
        = ({ s with participants := setKey (normalizeRoomCode rawCode, uid) ⟨uid, if strTrim name = "" then "Guest" else strTrim name, now, now⟩ s.participants },
           .ok ()) := by
      simp only [joinRoom]
      rw [hr]
    exact ⟨hout, by rw [hout]⟩

/-- Closed witness for C6: joining with an unnormalized code against the
empty store fails with RoomNotFound. -/
theorem joinRoom_spec_witness :
    joinRoom "u" " ab " "  " 3 emptyStore = (emptyStore, .error roomNotFoundMsg) :=
  (joinRoom_spec emptyStore "u" " ab " "  " 3).2.1 rfl

/-- C7: startRound writes the Round document first (revealed=false, trimmed
ticket) and only then points the Room's currentRoundId at exactly that fresh
round id, which it returns — after the first write the rooms collection is
still untouched while the round already exists. -/
theorem startRound_order (s : Store) (uid rawCode ticket rid : String) (now : Nat)
    (room : RoomDoc) (hroom : getKey (normalizeRoomCode rawCode) s.rooms = some room) :
    let code := normalizeRoomCode rawCode
    let newRound : RoundDoc := ⟨now, uid, strTrim ticket, false⟩
    let sMid : Store := { s with rounds := setKey (code, rid) newRound s.rounds }
    getKey (code, rid) sMid.rounds = some newRound
    ∧ sMid.rooms = s.rooms
    ∧ startRound uid rawCode ticket rid now s
        = ({ sMid with rooms := setKey code { room with currentRoundId := some rid, updatedAt := now } s.rooms }, .ok rid)
    ∧ getKey code (startRound uid rawCode ticket rid now s).1.rooms
        = some { room with currentRoundId := some rid, updatedAt := now }
    ∧ getKey (code, rid) (startRound uid rawCode ticket rid now s).1.rounds = some newRound := by
  intro code newRound sMid
  have hout : startRound uid rawCode ticket rid now s
      = ({ sMid with rooms := setKey code { room with currentRoundId := some rid, updatedAt := now } s.rooms }, .ok rid) := by
    simp only [startRound]
    rw [hroom]
  refine ⟨getKey_setKey_self _ _ _, rfl, hout, ?_, ?_⟩
  · rw [hout]
    exact getKey_setKey_self _ _ _
  · rw [hout]
    exact getKey_setKey_self _ _ _

/-- Closed witness for C7: starting a round in an existing room returns the
fresh round id. -/
theorem startRound_order_witness :
    (startRound "u" "AB" " T1 " "r1" 5 ⟨[("AB", ⟨"AB", 0, "h", none, 0⟩)], [], [], []⟩).2
      = .ok "r1" := by
  have h := startRound_order ⟨[("AB", ⟨"AB", 0, "h", none, 0⟩)], [], [], []⟩
    "u" "AB" " T1 " "r1" 5 ⟨"AB", 0, "h", none, 0⟩ (by decide)
  rw [h.2.2.1]

/-- C9: clearCurrentRound only rewrites the Room document (currentRoundId
to null, bumping updatedAt): rounds, votes and participants are untouched,
other rooms are untouched, and in the session projection the round reference
becomes null and the votes map resets to empty. -/
theorem clearCurrentRound_frame (s : Store) (rawCode : String) (now : Nat) (room : RoomDoc)
    (h : getKey (normalizeRoomCode rawCode) s.rooms = some room) :
    let code := normalizeRoomCode rawCode
    let room2 : RoomDoc := { room with currentRoundId := none, updatedAt := now }
    let out := clearCurrentRound rawCode now s
    out = ({ s with rooms := setKey code room2 s.rooms }, .ok ())
    ∧ out.1.rounds = s.rounds
    ∧ out.1.votes = s.votes
    ∧ out.1.participants = s.participants
    ∧ getKey code out.1.rooms = some room2
    ∧ (∀ c, c ≠ code → getKey c out.1.rooms = getKey c s.rooms)
    ∧ projectedRound code out.1 = none
    ∧ projectedVotes code out.1 = [] := by
  intro code room2 out
  have hout : out = ({ s with rooms := setKey code room2 s.rooms }, .ok ()) := by
    rw [show out = clearCurrentRound rawCode now s from rfl]
    simp only [clearCurrentRound]
    rw [h]
  refine ⟨hout, by rw [hout], by rw [hout], by rw [hout], ?_, ?_, ?_, ?_⟩
  · rw [hout]
    exact getKey_setKey_self _ _ _
  · intro c hc
    rw [hout]
    exact getKey_setKey_ne hc _ _
  · rw [hout]
    simp only [projectedRound]
    rw [getKey_setKey_self]
  · rw [hout]
    simp only [projectedVotes]
    rw [getKey_setKey_self]

/-- Closed witness for C9: clearing the round of a concrete room leaves the
round and vote documents in the store while the projection empties. -/
theorem clearCurrentRound_frame_witness :
    (clearCurrentRound "AB" 7
        ⟨[("AB", ⟨"AB", 0, "h", some "r1", 0⟩)], [],
          [(("AB", "r1"), ⟨0, "h", "T", false⟩)],
          [(("AB", "r1", "u"), ⟨"u", 5, 1⟩)]⟩).1.rounds
      = [(("AB", "r1"), ⟨0, "h", "T", false⟩)]
    ∧ projectedRound (normalizeRoomCode "AB")
        (clearCurrentRound "AB" 7
          ⟨[("AB", ⟨"AB", 0, "h", some "r1", 0⟩)], [],
            [(("AB", "r1"), ⟨0, "h", "T", false⟩)],
            [(("AB", "r1", "u"), ⟨"u", 5, 1⟩)]⟩).1 = none := by
  have h := clearCurrentRound_frame
    ⟨[("AB", ⟨"AB", 0, "h", some "r1", 0⟩)], [],
      [(("AB", "r1"), ⟨0, "h", "T", false⟩)],
      [(("AB", "r1", "u"), ⟨"u", 5, 1⟩)]⟩
    "AB" 7 ⟨"AB", 0, "h", some "r1", 0⟩ (by decide)
  exact ⟨h.2.1, h.2.2.2.2.2.2.1⟩

theorem createRoomGo_ok (uid name : String) (now : Nat) (rs : Nat → Fin 4 → Fin 32)
    (fault : Nat → Option String) :
    ∀ fuel attempt : Nat, ∀ s st : Store, ∀ code : String,
      createRoomGo uid name now rs fault fuel attempt s = (st, .ok code) →
        getKey (code, uid) st.participants
          = some ⟨uid, if strTrim name = "" then "Guest" else strTrim name, now, now⟩
        ∧ getKey code st.rooms = some ⟨code, now, uid, none, now⟩ := by
  intro fuel
  induction fuel with
  | zero =>
      intro attempt s st code h
      exact absurd h (by simp [createRoomGo])
  | succ n ih =>
      intro attempt s st code h
      simp only [createRoomGo] at h
      cases hf : fault attempt with
      | some m =>
          simp only [hf] at h
          by_cases hc : strIncludes m permissionDeniedMsg = true ∧ attempt < 9
          · rw [if_pos hc] at h
            exact ih _ _ _ _ h
          · rw [if_neg hc] at h
            injection h with h1 h2
            exact absurd h2 (by simp)
      | none =>
          simp only [hf] at h
          cases hg : getKey (generateRoomCode (rs attempt)) s.rooms with
          | some room0 =>
              simp only [hg] at h
              by_cases hc : strIncludes permissionDeniedMsg permissionDeniedMsg = true
                  ∧ attempt < 9
              · rw [if_pos hc] at h
                exact ih _ _ _ _ h
              · rw [if_neg hc] at h
                injection h with h1 h2
                exact absurd h2 (by simp)
          | none =>
              simp only [hg] at h
              injection h with h1 h2
              injection h2 with h2
              rw [← h1, ← h2]
              exact ⟨getKey_setKey_self _ _ _, getKey_setKey_self _ _ _⟩

/-- C10: both createRoom and joinRoom store the participant name as "Guest"
when the trimmed name is empty, and as the trimmed name otherwise. -/
theorem guest_name_default (s : Store) (uid name rawCode : String) (now : Nat) :
    (∀ room, getKey (normalizeRoomCode rawCode) s.rooms = some room →
      ∃ p, getKey (normalizeRoomCode rawCode, uid)
          (joinRoom uid rawCode name now s).1.participants = some p
        ∧ (strTrim name = "" → p.name = "Guest")
        ∧ (strTrim name ≠ "" → p.name = strTrim name))
    ∧ (∀ rs : Nat → Fin 4 → Fin 32, ∀ fault : Nat → Option String, ∀ st : Store, ∀ code,
        createRoom uid name now rs fault s = (st, .ok code) →
      ∃ p, getKey (code, uid) st.participants = some p
        ∧ (strTrim name = "" → p.name = "Guest")
        ∧ (strTrim name ≠ "" → p.name = strTrim name)) := by
  constructor
  · intro room hr
    have hout : (joinRoom uid rawCode name now s).1.participants
        = setKey (normalizeRoomCode rawCode, uid) ⟨uid, if strTrim name = "" then "Guest" else strTrim name, now, now⟩ s.participants := by
      simp only [joinRoom]
      rw [hr]
    refine ⟨⟨uid, if strTrim name = "" then "Guest" else strTrim name, now, now⟩, ?_, ?_, ?_⟩
    · rw [hout]
      exact getKey_setKey_self _ _ _
    · intro he
      simp [he]
    · intro he
      simp [he]
  · intro rs fault st code hcr
    obtain ⟨hp, -⟩ := createRoomGo_ok uid name now rs fault 10 0 s st code hcr
    refine ⟨⟨uid, if strTrim name = "" then "Guest" else strTrim name, now, now⟩, hp, ?_, ?_⟩
    · intro he
      simp [he]
    · intro he
      simp [he]

/-- Closed witness for C10: joining with an all-whitespace name stores the
name "Guest". -/
theorem guest_name_default_witness :
    ∃ p, getKey (normalizeRoomCode "AB", "u")
        (joinRoom "u" "AB" "   " 3 ⟨[("AB", ⟨"AB", 0, "h", none, 0⟩)], [], [], []⟩).1.participants
        = some p
      ∧ p.name = "Guest" := by
  obtain ⟨p, h1, h2, -⟩ :=
    (guest_name_default ⟨[("AB", ⟨"AB", 0, "h", none, 0⟩)], [], [], []⟩ "u" "   " "AB" 3).1
      ⟨"AB", 0, "h", none, 0⟩ (by decide)
  exact ⟨p, h1, h2 rfl⟩

/-- C4: with room "AAAA" already present and every draw producing "AAAA",
createRoom runs through all 10 attempts and then surfaces the raw permission
error of the 10th collision — not the RoomCreationExhausted message, whose
post-loop throw is unreachable; a non-collision error at the first attempt
propagates immediately; and when only the first nine attempts collide the
tenth succeeds. -/
theorem createRoom_collision_exhaustion :
    createRoom "u" "n" 0 (fun _ _ => 0) (fun _ => none)
        ⟨[("AAAA", ⟨"AAAA", 0, "h", none, 0⟩)], [], [], []⟩
      = (⟨[("AAAA", ⟨"AAAA", 0, "h", none, 0⟩)], [], [], []⟩, .error permissionDeniedMsg)
    ∧ permissionDeniedMsg ≠ roomCreationExhaustedMsg
    ∧ createRoom "u" "n" 0 (fun _ _ => 0) (fun _ => some "boom") emptyStore
      = (emptyStore, .error "boom")
    ∧ (createRoom "u" "n" 0 (fun attempt _ => if attempt = 9 then 1 else 0) (fun _ => none)
        ⟨[("AAAA", ⟨"AAAA", 0, "h", none, 0⟩)], [], [], []⟩).2 = .ok "BBBB" := by
  exact ⟨rfl, by decide, rfl, rfl⟩

end PlanningPoker
